import Mathlib

/-!
# Ticket Synchronization and Action-Confirmation Engine — verification

Shallow embedding of the core of the `craft-agents-oss` repository:

* `TicketPollingService.diff` and `TicketPollingService.poll`
  (packages/shared/src/zendesk/polling.ts),
* the renderer ticket-queue store and its mutation atoms
  (apps/electron/src/renderer/atoms/tickets.ts),
* diff ingestion `handleTicketDiff` (useZendeskPolling hook, latest revision),
* the confirmation flow `handleConfirm` / `handleConfirmAll` (TicketPage,
  latest revision) and the `ZENDESK_CONFIRM_ACTION` IPC handler,
* the auto-execute `add_ticket_tags` tool (zendesk-tools-server).

JavaScript `Map`s are modelled as association lists with `Map` semantics
(`set` overwrites in place, insertion order preserved); `Date.now()` is an
explicit `now : Nat` parameter; network calls are explicit parameters
(fetch results as `Except`, remote write outcomes as `Bool`).
-/

set_option maxHeartbeats 1000000

/-- A Zendesk ticket as far as the core reads it: integer `id`, revision
marker `updated_at`, plus descriptive fields carried through untouched. -/
structure ZendeskTicket where
  id : Nat
  updated_at : String
  subject : String := ""
  status : String := ""
  tags : List String := []
  deriving DecidableEq

namespace JsMap

/-- `Map.get`: the value of the first (hence, with unique keys, the only)
entry with the given key. -/
def get {α : Type} (m : List (Nat × α)) (k : Nat) : Option α :=
  (m.find? (fun e => e.1 == k)).map (fun e => e.2)

/-- `Map.set`: overwrite in place if the key exists (JS `Map.set` keeps the
original position), else append. -/
def set {α : Type} (m : List (Nat × α)) (k : Nat) (v : α) : List (Nat × α) :=
  if m.any (fun e => e.1 == k) then
    m.map (fun e => if e.1 == k then (k, v) else e)
  else m ++ [(k, v)]

/-- `Map.delete`: drop every entry with the given key. -/
def del {α : Type} (m : List (Nat × α)) (k : Nat) : List (Nat × α) :=
  m.filter (fun e => e.1 != k)

end JsMap

/-- The polling snapshot: a JS `Map<number, {id, updated_at}>`, modelled as an
association list from ticket id to revision marker, keys unique by
construction of the operations below. -/
abbrev Snapshot := List (Nat × String)

/-- `Map.get` on the snapshot. -/
def snapLookup (m : Snapshot) (k : Nat) : Option String :=
  JsMap.get m k

/-- `Map.set` on the snapshot. -/
def snapSet (m : Snapshot) (k : Nat) (v : String) : Snapshot :=
  JsMap.set m k v

/-- Result of `TicketPollingService.diff`. -/
structure TicketDiff where
  added : List ZendeskTicket
  updated : List ZendeskTicket
  removed : List Nat
  deriving DecidableEq

namespace TicketPollingService

/-- `TicketPollingService.diff` (polling.ts): one pass over `incoming`
pushing tickets absent from `existing` to `added` and tickets with a
changed `updated_at` to `updated` (push-in-order = `filter`), then one pass
over the keys of `existing` pushing ids absent from the incoming id set to
`removed`. -/
def diff (existing : Snapshot) (incoming : List ZendeskTicket) : TicketDiff :=
  { added := incoming.filter (fun t => (snapLookup existing t.id).isNone)
  , updated := incoming.filter (fun t =>
      match snapLookup existing t.id with
      | some prev => prev != t.updated_at
      | none => false)
  , removed := (existing.map (fun e => e.1)).filter
      (fun id => !(incoming.any (fun t => t.id == id))) }

/-- The fresh snapshot built inside `poll()`:
`knownTickets.clear()` then `set(ticket.id, {id, updated_at})` per ticket. -/
def snapshotOf (tickets : List ZendeskTicket) : Snapshot :=
  tickets.foldl (fun m t => snapSet m t.id t.updated_at) []

/-- `TicketPollingService.poll` (polling.ts) as a pure step: given the
current `knownTickets` and the outcome of `searchAssignedTickets()`, return
the new snapshot, the diff handed to `onDiff` (if any), and the error
handed to `console.error` (if any).  On a fetch error the `catch` block
logs and leaves the state untouched. -/
def poll (known : Snapshot) (fetchResult : Except String (List ZendeskTicket)) :
    Snapshot × Option TicketDiff × Option String :=
  match fetchResult with
  | Except.ok tickets =>
      let d := diff known tickets
      let emitted := if d.added.length != 0 || d.updated.length != 0
          || d.removed.length != 0 then some d else none
      (snapshotOf tickets, emitted, none)
  | Except.error e => (known, none, some e)

end TicketPollingService

/-- `TicketProcessingStatus` (types/ticket): the processing state machine of
a queue item. -/
inductive TicketProcessingStatus where
  | pending
  | working
  | ready
  | needs_input
  | paused
  | error
  | done
  deriving DecidableEq

/-- The opaque per-action payload (`Record<string, unknown>`), restricted to
the fields the confirmation tools write and the `ZENDESK_CONFIRM_ACTION`
handler reads.  `setStatus`/`targetGroup` are `null | string` in the source;
`none` models `null`/absent (the falsy case of the truthiness tests — the
status strings themselves are non-empty enum constants). -/
structure ActionPayload where
  action : String
  body : String := ""
  setStatus : Option String := none
  requestedStatus : String := ""
  reason : String := ""
  targetGroup : Option String := none
  tags : List String := []
  deriving DecidableEq

/-- `PendingAction` (types/ticket): one AI-proposed, human-confirmable
operation, identified by `id` within its ticket. -/
structure PendingAction where
  id : String
  type : String
  label : String := ""
  description : String := ""
  payload : ActionPayload
  confirmed : Bool := false
  deriving DecidableEq

/-- `TicketQueueItem` (types/ticket): the locally tracked wrapper around a
ticket, keyed in the table by `ticket.id`. -/
structure TicketQueueItem where
  ticket : ZendeskTicket
  status : TicketProcessingStatus
  sessionId : Option String
  requester : Option String
  comments : List String
  pendingActions : List PendingAction
  error : Option String
  addedAt : Nat
  lastUpdatedAt : Nat
  deriving DecidableEq

/-- The ticket queue table (`ticketQueueAtom`), a JS
`Map<number, TicketQueueItem>` modelled as an association list. -/
abbrev TicketQueue := List (Nat × TicketQueueItem)

/-- `Map.get` on the queue table. -/
def queueGet (q : TicketQueue) (k : Nat) : Option TicketQueueItem :=
  JsMap.get q k

/-- `Map.set` on the queue table. -/
def queueSet (q : TicketQueue) (k : Nat) (v : TicketQueueItem) : TicketQueue :=
  JsMap.set q k v

/-- `Map.delete` on the queue table. -/
def queueDelete (q : TicketQueue) (k : Nat) : TicketQueue :=
  JsMap.del q k

/-- `createQueueItem` (useZendeskPolling): fresh item for a newly discovered
ticket — `status: 'pending'`, `sessionId: null`, empty `pendingActions`. -/
def createQueueItem (ticket : ZendeskTicket) (now : Nat) : TicketQueueItem :=
  { ticket := ticket
  , status := TicketProcessingStatus.pending
  , sessionId := none
  , requester := none
  , comments := []
  , pendingActions := []
  , error := none
  , addedAt := now
  , lastUpdatedAt := now }

/-- Body of the first loop of `handleTicketDiff` (useZendeskPolling, latest
revision): add new tickets only if not already in the queue. -/
def addTicketStep (now : Nat) (next : TicketQueue) (t : ZendeskTicket) : TicketQueue :=
  if (queueGet next t.id).isSome then next
  else queueSet next t.id (createQueueItem t now)

/-- Body of the second loop of `handleTicketDiff`: replace the embedded
ticket of an existing item (preserving local processing state), or treat an
updated ticket never seen before as new. -/
def updateTicketStep (now : Nat) (next : TicketQueue) (t : ZendeskTicket) : TicketQueue :=
  match queueGet next t.id with
  | some existing =>
      queueSet next t.id { existing with ticket := t, lastUpdatedAt := now }
  | none => queueSet next t.id (createQueueItem t now)

/-- Body of the third loop of `handleTicketDiff`: delete a removed id unless
the item is actively being worked on by the AI. -/
def removeTicketStep (next : TicketQueue) (id : Nat) : TicketQueue :=
  match queueGet next id with
  | some item =>
      if item.status != TicketProcessingStatus.working then queueDelete next id
      else next
  | none => next

/-- `handleTicketDiff` (useZendeskPolling, latest revision): ingest a diff
into the queue table — the three sequential loops over `added`, `updated`
and `removed`. -/
def handleTicketDiff (now : Nat) (prev : TicketQueue) (d : TicketDiff) : TicketQueue :=
  d.removed.foldl removeTicketStep
    (d.updated.foldl (updateTicketStep now)
      (d.added.foldl (addTicketStep now) prev))

/-- `setTicketSessionIdAtom` (atoms/tickets.ts). -/
def setTicketSessionId (now : Nat) (q : TicketQueue) (ticketId : Nat)
    (sessionId : String) : TicketQueue :=
  match queueGet q ticketId with
  | some item =>
      queueSet q ticketId
        { item with
          sessionId := some sessionId,
          status := TicketProcessingStatus.working,
          lastUpdatedAt := now }
  | none => q

/-- `setTicketStatusAtom` (atoms/tickets.ts); `error ?? item.error`. -/
def setTicketStatus (now : Nat) (q : TicketQueue) (ticketId : Nat)
    (status : TicketProcessingStatus) (error : Option String) : TicketQueue :=
  match queueGet q ticketId with
  | some item =>
      queueSet q ticketId
        { item with
          status := status,
          error := match error with | some e => some e | none => item.error,
          lastUpdatedAt := now }
  | none => q

/-- `addPendingActionAtom` (atoms/tickets.ts): append and force `ready`. -/
def addPendingAction (now : Nat) (q : TicketQueue) (ticketId : Nat)
    (action : PendingAction) : TicketQueue :=
  match queueGet q ticketId with
  | some item =>
      queueSet q ticketId
        { item with
          pendingActions := item.pendingActions ++ [action],
          status := TicketProcessingStatus.ready,
          lastUpdatedAt := now }
  | none => q

/-- `removePendingActionAtom` (atoms/tickets.ts): filter the action out;
`ready` if anything remains, else `done`. -/
def removePendingAction (now : Nat) (q : TicketQueue) (ticketId : Nat)
    (actionId : String) : TicketQueue :=
  match queueGet q ticketId with
  | some item =>
      let actions := item.pendingActions.filter (fun a => a.id != actionId)
      queueSet q ticketId
        { item with
          pendingActions := actions,
          status := if actions.length > 0 then TicketProcessingStatus.ready
            else TicketProcessingStatus.done,
          lastUpdatedAt := now }
  | none => q

/-- `clearPendingActionsAtom` (atoms/tickets.ts): empty the queue, `done`. -/
def clearPendingActions (now : Nat) (q : TicketQueue) (ticketId : Nat) : TicketQueue :=
  match queueGet q ticketId with
  | some item =>
      queueSet q ticketId
        { item with
          pendingActions := [],
          status := TicketProcessingStatus.done,
          lastUpdatedAt := now }
  | none => q

/-- A comment object inside a Zendesk ticket update payload. -/
structure CommentUpdate where
  body : String
  public : Bool
  deriving DecidableEq

/-- The body of one `ZendeskClient.updateTicket` call (`TicketUpdatePayload`):
the fields the confirm handler and the tags tool put in `{ ticket: ... }`. -/
structure TicketUpdate where
  comment : Option CommentUpdate := none
  status : Option String := none
  tags : Option (List String) := none
  deriving DecidableEq

/-- Result of the `ZENDESK_CONFIRM_ACTION` IPC handler: the reported
`success` flag and the `updateTicket` calls it attempted (in order). -/
structure ConfirmResult where
  success : Bool
  sent : List TicketUpdate
  deriving DecidableEq

/-- The `updateTicket` body selected by `payload.action` in the
`ZENDESK_CONFIRM_ACTION` handler (zendesk IPC, latest revision):
`draft_reply` → public comment plus optional status; `request_status_change`
→ status only; `request_escalation` → private comment recording reason and
target group; any other action string matches no branch and sends nothing. -/
def confirmActionUpdate (payload : ActionPayload) : Option TicketUpdate :=
  if payload.action == "draft_reply" then
    some { comment := some { body := payload.body, public := true }
         , status := payload.setStatus }
  else if payload.action == "request_status_change" then
    some { status := some payload.requestedStatus }
  else if payload.action == "request_escalation" then
    some { comment := some
            { body := "**Escalation requested:** " ++ payload.reason ++
                (match payload.targetGroup with
                 | some g => "\nTarget group: " ++ g
                 | none => "")
            , public := false } }
  else none

/-- The `ZENDESK_CONFIRM_ACTION` handler as a pure step (credentials
present): `remoteOk` is whether the `updateTicket` HTTP call succeeds; a
thrown transport error is caught and reported as `success: false`; a payload
matching no branch falls through to `return { success: true }` with no
remote call. -/
def confirmZendeskAction (remoteOk : Bool) (payload : ActionPayload) : ConfirmResult :=
  match confirmActionUpdate payload with
  | some u => { success := remoteOk, sent := [u] }
  | none => { success := true, sent := [] }

/-- `handleConfirm` (TicketPage, latest revision): look up the action in the
active ticket's queue; if absent, no-op; otherwise confirm it over IPC and
remove it from the queue only when the result reports success.  Returns the
new table and the attempted remote calls. -/
def handleConfirm (now : Nat) (remoteOk : Bool) (q : TicketQueue) (ticketId : Nat)
    (actionId : String) : TicketQueue × List TicketUpdate :=
  match queueGet q ticketId with
  | none => (q, [])
  | some item =>
      match item.pendingActions.find? (fun a => a.id == actionId) with
      | none => (q, [])
      | some action =>
          let r := confirmZendeskAction remoteOk action.payload
          (if r.success then removePendingAction now q ticketId actionId else q,
           r.sent)

/-- `handleConfirmAll` (TicketPage, latest revision): for each action of the
active ticket, in queue order, await `confirmZendeskAction` (its result is
not inspected, so a failure does not abort the loop), then call
`clearPendingActions` on the ticket.  `remoteOk` gives each action's remote
outcome; the returned event list records, in order, each action's id, the
reported success flag, and the remote calls attempted for it. -/
def handleConfirmAll (now : Nat) (remoteOk : PendingAction → Bool)
    (q : TicketQueue) (ticketId : Nat) :
    TicketQueue × List (String × Bool × List TicketUpdate) :=
  match queueGet q ticketId with
  | none => (q, [])
  | some item =>
      let events := item.pendingActions.map (fun a =>
        let r := confirmZendeskAction (remoteOk a) a.payload
        (a.id, r.success, r.sent))
      (clearPendingActions now q ticketId, events)

/-- `[...new Set(l)]`: JS `Set` insertion — append each element not already
present, keeping first occurrences in insertion order. -/
def setDedup (l : List String) : List String :=
  l.foldl (fun acc x => if x ∈ acc then acc else acc ++ [x]) []

/-- The tag merge of the auto-execute `add_ticket_tags` tool
(zendesk-tools-server): `[...new Set([...existingTags, ...args.tags])]` —
concatenate and deduplicate keeping first occurrences. -/
def mergeTags (existingTags newTags : List String) : List String :=
  setDedup (existingTags ++ newTags)

/-- The `updateTicket` call made by `add_ticket_tags` after fetching the
ticket: `{ ticket: { tags: mergedTags } }`. -/
def addTicketTagsUpdate (ticket : ZendeskTicket) (newTags : List String) : TicketUpdate :=
  { tags := some (mergeTags ticket.tags newTags) }

/-- Concrete pending action of kind draft_reply (confirm-all scenario). -/
def cexAction1 : PendingAction :=
  { id := "a1", type := "draft_reply"
  , payload := { action := "draft_reply", body := "Hello" } }

/-- Concrete pending action of kind request_status_change (confirm-all
scenario). -/
def cexAction2 : PendingAction :=
  { id := "a2", type := "request_status_change"
  , payload := { action := "request_status_change", requestedStatus := "solved" } }

/-- Concrete queue item holding the two actions above. -/
def cexItem : TicketQueueItem :=
  { ticket := ⟨1, "2026-01-01", "", "", []⟩
  , status := TicketProcessingStatus.ready
  , sessionId := none, requester := none, comments := []
  , pendingActions := [cexAction1, cexAction2], error := none
  , addedAt := 0, lastUpdatedAt := 0 }

/-- Concrete one-ticket queue table for the confirm-all scenario. -/
def cexQueue : TicketQueue := [(1, cexItem)]

-- Sanity checks mirroring the scenarios of polling.test.ts.
example :
    TicketPollingService.diff [(100, "2026-01-01")]
      [⟨100, "2026-01-01", "", "", []⟩, ⟨101, "2026-01-02", "", "", []⟩] =
    ⟨[⟨101, "2026-01-02", "", "", []⟩], [], []⟩ := by decide

example :
    TicketPollingService.diff [(100, "2026-01-01")] [⟨100, "2026-01-02", "", "", []⟩] =
    ⟨[], [⟨100, "2026-01-02", "", "", []⟩], []⟩ := by decide

example :
    TicketPollingService.diff [(100, "2026-01-01"), (101, "2026-01-01")]
      [⟨100, "2026-01-01", "", "", []⟩] =
    ⟨[], [], [101]⟩ := by decide

namespace JsMap

variable {α : Type}

theorem get_nil (k : Nat) : get ([] : List (Nat × α)) k = none := rfl

theorem get_cons (e : Nat × α) (m : List (Nat × α)) (k : Nat) :
    get (e :: m) k = if e.1 = k then some e.2 else get m k := by
  by_cases h : e.1 = k <;> simp [get, List.find?_cons, h]

theorem get_append (m₁ m₂ : List (Nat × α)) (k : Nat) :
    get (m₁ ++ m₂) k = match get m₁ k with
      | some v => some v
      | none => get m₂ k := by
  induction m₁ with
  | nil => simp [get_nil]
  | cons e m ih =>
      by_cases h : e.1 = k <;> simp [get_cons, h, ih]

theorem get_eq_none_of_any_eq_false {m : List (Nat × α)} {k : Nat}
    (h : m.any (fun e => e.1 == k) = false) : get m k = none := by
  induction m with
  | nil => rfl
  | cons e m ih =>
      simp only [List.any_cons, Bool.or_eq_false_iff] at h
      have hne : ¬(e.1 = k) := by simpa using h.1
      simp [get_cons, hne, ih h.2]

theorem get_map_ne {m : List (Nat × α)} {k i : Nat} (v : α) (h : i ≠ k) :
    get (m.map (fun e => if e.1 == k then (k, v) else e)) i = get m i := by
  induction m with
  | nil => rfl
  | cons e m ih =>
      by_cases he : e.1 = k
      · have hhead : (if e.1 == k then (k, v) else e) = (k, v) := by simp [he]
        rw [List.map_cons, hhead, get_cons, get_cons, ih]
        have h1 : ¬((k, v).1 = i) := fun h2 => h h2.symm
        have h2 : ¬(e.1 = i) := by
          rw [he]; exact fun h3 => h h3.symm
        rw [if_neg h1, if_neg h2]
      · have hhead : (if e.1 == k then (k, v) else e) = e := by simp [he]
        rw [List.map_cons, hhead, get_cons, get_cons, ih]

theorem get_map_self {m : List (Nat × α)} {k : Nat} (v : α)
    (hAny : (m.any fun e => e.1 == k) = true) :
    get (m.map (fun e => if e.1 == k then (k, v) else e)) k = some v := by
  induction m with
  | nil => simp at hAny
  | cons e m ih =>
      by_cases he : e.1 = k
      · have hhead : (if e.1 == k then (k, v) else e) = (k, v) := by simp [he]
        rw [List.map_cons, hhead, get_cons, if_pos rfl]
      · have hhead : (if e.1 == k then (k, v) else e) = e := by simp [he]
        have hAny2 : (m.any fun e => e.1 == k) = true := by
          simpa [List.any_cons, he] using hAny
        rw [List.map_cons, hhead, get_cons, if_neg he]
        exact ih hAny2

theorem get_set (m : List (Nat × α)) (k : Nat) (v : α) (i : Nat) :
    get (set m k v) i = if i = k then some v else get m i := by
  by_cases hAny : (m.any (fun e => e.1 == k)) = true
  · rw [set, if_pos hAny]
    by_cases hik : i = k
    · rw [if_pos hik, hik, get_map_self v hAny]
    · rw [if_neg hik, get_map_ne v hik]
  · rw [set, if_neg hAny, get_append]
    by_cases hik : i = k
    · rw [if_pos hik, hik]
      have hAny0 : (m.any (fun e => e.1 == k)) = false := Bool.eq_false_iff.mpr hAny
      have hnone : get m k = none := get_eq_none_of_any_eq_false hAny0
      simp [hnone, get_cons]
    · rw [if_neg hik]
      have h1 : ¬((k, v).1 = i) := fun h2 => hik h2.symm
      cases hg : get m i with
      | some w => simp [hg]
      | none => simp [hg, get_cons, get_nil, h1]

theorem get_del (m : List (Nat × α)) (k i : Nat) :
    get (del m k) i = if i = k then none else get m i := by
  induction m with
  | nil => simp [del, get_nil]
  | cons e m ih =>
      by_cases he : e.1 = k
      · have hf : (e.1 != k) = false := by simp [he]
        rw [del, List.filter_cons, hf]
        simp only [Bool.false_eq_true, if_false]
        rw [show List.filter (fun e => e.1 != k) m = del m k from rfl, ih]
        by_cases hik : i = k
        · rw [if_pos hik, if_pos hik]
        · have h2 : ¬(e.1 = i) := by
            rw [he]; exact fun h3 => hik h3.symm
          rw [if_neg hik, if_neg hik, get_cons, if_neg h2]
      · have hf : (e.1 != k) = true := by simp [he]
        rw [del, List.filter_cons, hf]
        simp only [if_true]
        rw [get_cons, show List.filter (fun e => e.1 != k) m = del m k from rfl, ih,
          get_cons]
        by_cases hik : i = k
        · have h2 : ¬(e.1 = i) := fun h3 => he (hik ▸ h3)
          simp [hik, h2, he]
        · by_cases h2 : e.1 = i <;> simp [h2, hik]

end JsMap

/-- C1: for every known-snapshot map and incoming ticket list, `diff`
classifies each incoming ticket whose id is absent from the snapshot as
`added`, each incoming ticket whose id is present with a different revision
marker as `updated`, reports each snapshot id absent from the incoming list
in `removed`, puts a ticket with an identical marker in no bucket, and the
three buckets are pairwise disjoint with respect to id; the empty-snapshot
diff adds everything and the empty-incoming diff removes everything. -/
theorem diff_classifies (existing : Snapshot) (incoming : List ZendeskTicket) :
    (∀ t ∈ incoming, snapLookup existing t.id = none →
      t ∈ (TicketPollingService.diff existing incoming).added) ∧
    (∀ t ∈ incoming, ∀ r, snapLookup existing t.id = some r → r ≠ t.updated_at →
      t ∈ (TicketPollingService.diff existing incoming).updated) ∧
    (∀ p ∈ existing, (∀ t ∈ incoming, t.id ≠ p.1) →
      p.1 ∈ (TicketPollingService.diff existing incoming).removed) ∧
    (∀ t ∈ incoming, snapLookup existing t.id = some t.updated_at →
      t ∉ (TicketPollingService.diff existing incoming).added ∧
      t ∉ (TicketPollingService.diff existing incoming).updated ∧
      t.id ∉ (TicketPollingService.diff existing incoming).removed) ∧
    (∀ i, i ∈ (TicketPollingService.diff existing incoming).added.map ZendeskTicket.id →
      i ∉ (TicketPollingService.diff existing incoming).updated.map ZendeskTicket.id ∧
      i ∉ (TicketPollingService.diff existing incoming).removed) ∧
    (∀ i, i ∈ (TicketPollingService.diff existing incoming).updated.map ZendeskTicket.id →
      i ∉ (TicketPollingService.diff existing incoming).removed) ∧
    (TicketPollingService.diff existing []).added = [] ∧
    (TicketPollingService.diff existing []).updated = [] ∧
    (TicketPollingService.diff existing []).removed = existing.map Prod.fst ∧
    (TicketPollingService.diff [] incoming).added = incoming ∧
    (TicketPollingService.diff [] incoming).updated = [] ∧
    (TicketPollingService.diff [] incoming).removed = [] := by
  refine ⟨?_, ?_, ?_, ?_, ?_, ?_, ?_, ?_, ?_, ?_, ?_, ?_⟩
  · intro t ht hnone
    simp only [TicketPollingService.diff, List.mem_filter]
    exact ⟨ht, by simp [hnone]⟩
  · intro t ht r hr hne
    simp only [TicketPollingService.diff, List.mem_filter]
    refine ⟨ht, ?_⟩
    rw [hr]
    simpa using hne
  · intro p hp hnotin
    simp only [TicketPollingService.diff, List.mem_filter, List.mem_map]
    refine ⟨⟨p, hp, rfl⟩, ?_⟩
    have hany : (incoming.any (fun t => t.id == p.1)) = false := by
      rw [List.any_eq_false]
      intro t ht
      simpa using hnotin t ht
    simp [hany]
  · intro t ht heq
    refine ⟨?_, ?_, ?_⟩
    · intro hmem
      simp only [TicketPollingService.diff, List.mem_filter] at hmem
      rw [heq] at hmem
      simp at hmem
    · intro hmem
      simp only [TicketPollingService.diff, List.mem_filter] at hmem
      rw [heq] at hmem
      simp at hmem
    · intro hmem
      simp only [TicketPollingService.diff, List.mem_filter] at hmem
      have hany : (incoming.any (fun s => s.id == t.id)) = true :=
        List.any_eq_true.mpr ⟨t, ht, by simp⟩
      rw [hany] at hmem
      simp at hmem
  · intro i hadded
    simp only [TicketPollingService.diff, List.mem_map, List.mem_filter] at hadded
    obtain ⟨t, ⟨htmem, htpred⟩, hti⟩ := hadded
    have hnone : snapLookup existing i = none := by
      rw [← hti]
      cases hl : snapLookup existing t.id with
      | none => rfl
      | some r => rw [hl] at htpred; simp at htpred
    constructor
    · intro hupd
      simp only [TicketPollingService.diff, List.mem_map, List.mem_filter] at hupd
      obtain ⟨s, ⟨hsmem, hspred⟩, hsi⟩ := hupd
      rw [hsi, hnone] at hspred
      simp at hspred
    · intro hrem
      simp only [TicketPollingService.diff, List.mem_filter] at hrem
      have hany : (incoming.any (fun s => s.id == i)) = true :=
        List.any_eq_true.mpr ⟨t, htmem, by simp [hti]⟩
      rw [hany] at hrem
      simp at hrem
  · intro i hupd
    simp only [TicketPollingService.diff, List.mem_map, List.mem_filter] at hupd
    obtain ⟨s, ⟨hsmem, hspred⟩, hsi⟩ := hupd
    intro hrem
    simp only [TicketPollingService.diff, List.mem_filter] at hrem
    have hany : (incoming.any (fun u => u.id == i)) = true :=
      List.any_eq_true.mpr ⟨s, hsmem, by simp [hsi]⟩
    rw [hany] at hrem
    simp at hrem
  · rfl
  · rfl
  · simp only [TicketPollingService.diff]
    rw [List.filter_eq_self]
    intro a _
    simp
  · simp only [TicketPollingService.diff]
    rw [List.filter_eq_self]
    intro t _
    rfl
  · simp only [TicketPollingService.diff]
    rw [List.filter_eq_nil_iff]
    intro t _
    simp [snapLookup, JsMap.get]
  · rfl

/-- Witness for C1: the scenario known = 100 ↦ 2026-01-01, incoming =
tickets 100 (same marker) and 101 (new) puts 101 in `added` and keeps 100
out of every bucket. -/
theorem diff_classifies_witness :
    (⟨101, "2026-01-02", "", "", []⟩ : ZendeskTicket) ∈
      (TicketPollingService.diff [(100, "2026-01-01")]
        [⟨100, "2026-01-01", "", "", []⟩, ⟨101, "2026-01-02", "", "", []⟩]).added ∧
    (⟨100, "2026-01-01", "", "", []⟩ : ZendeskTicket) ∉
      (TicketPollingService.diff [(100, "2026-01-01")]
        [⟨100, "2026-01-01", "", "", []⟩, ⟨101, "2026-01-02", "", "", []⟩]).updated := by
  have h := diff_classifies [(100, "2026-01-01")]
    [⟨100, "2026-01-01", "", "", []⟩, ⟨101, "2026-01-02", "", "", []⟩]
  exact ⟨h.1 _ (by decide) (by decide),
    (h.2.2.2.1 _ (by decide) (by decide)).2.1⟩

/-- C5: a poll whose fetch fails leaves `knownTickets` exactly as it was,
invokes no change callback, and hands the error to the log sink — the
`catch` block swallows it, so the step function returns normally and the
scheduler's timer keeps ticking. -/
theorem poll_fetch_failure (known : Snapshot) (e : String) :
    TicketPollingService.poll known (Except.error e) = (known, none, some e) := rfl

namespace TicketPollingService

theorem diff_nil_known (incoming : List ZendeskTicket) :
    diff [] incoming = ⟨incoming, [], []⟩ := by
  simp only [diff, TicketDiff.mk.injEq]
  refine ⟨?_, ?_, rfl⟩
  · rw [List.filter_eq_self]
    intro t _
    rfl
  · rw [List.filter_eq_nil_iff]
    intro t _
    simp [snapLookup, JsMap.get]

theorem snapSet_fresh {m : Snapshot} {k : Nat} (v : String)
    (h : k ∉ m.map Prod.fst) : snapSet m k v = m ++ [(k, v)] := by
  have hAny : (m.any fun e => e.1 == k) = false := by
    by_contra hc
    rw [Bool.not_eq_false, List.any_eq_true] at hc
    obtain ⟨e, he, hek⟩ := hc
    exact h (List.mem_map.mpr ⟨e, he, by simpa using hek⟩)
  rw [snapSet, JsMap.set, hAny]
  exact if_neg Bool.false_ne_true

theorem snapshotOf_go (tickets : List ZendeskTicket) (m : Snapshot)
    (h : (m.map Prod.fst ++ tickets.map ZendeskTicket.id).Nodup) :
    tickets.foldl (fun m t => snapSet m t.id t.updated_at) m =
      m ++ tickets.map (fun t => (t.id, t.updated_at)) := by
  induction tickets generalizing m with
  | nil => simp
  | cons t ts ih =>
      have hdisj := (List.nodup_append.mp h).2.2
      have hfresh : t.id ∉ m.map Prod.fst := by
        intro hmem
        exact hdisj hmem (by simp)
      rw [List.foldl_cons, snapSet_fresh _ hfresh]
      rw [ih (m ++ [(t.id, t.updated_at)]) ?_]
      · simp
      · simp only [List.map_append, List.map_cons, List.map_nil] at h ⊢
        rw [List.append_assoc]
        simpa using h

theorem snapshotOf_eq_map {tickets : List ZendeskTicket}
    (h : (tickets.map ZendeskTicket.id).Nodup) :
    snapshotOf tickets = tickets.map (fun t => (t.id, t.updated_at)) := by
  have := snapshotOf_go tickets [] (by simpa using h)
  simpa [snapshotOf] using this

theorem snapLookup_map_self {tickets : List ZendeskTicket}
    (h : (tickets.map ZendeskTicket.id).Nodup) {t : ZendeskTicket}
    (ht : t ∈ tickets) :
    snapLookup (tickets.map (fun s => (s.id, s.updated_at))) t.id =
      some t.updated_at := by
  induction tickets with
  | nil => cases ht
  | cons s ts ih =>
      rw [List.map_cons] at h
      have h1 := (List.nodup_cons.mp h).1
      have h2 := (List.nodup_cons.mp h).2
      rw [List.map_cons]
      rw [show snapLookup ((s.id, s.updated_at) :: ts.map fun u => (u.id, u.updated_at))
            t.id = JsMap.get ((s.id, s.updated_at) :: ts.map fun u => (u.id, u.updated_at))
            t.id from rfl]
      rw [JsMap.get_cons]
      rcases List.mem_cons.mp ht with hts | hts
      · subst hts
        simp
      · have hne : ¬((s.id, s.updated_at).1 = t.id) := by
          intro hc
          have hmem : t.id ∈ ts.map ZendeskTicket.id := List.mem_map.mpr ⟨t, hts, rfl⟩
          exact h1 (by rw [show s.id = t.id from hc]; exact hmem)
        rw [if_neg hne]
        exact ih h2 hts

theorem diff_after_snapshot {tickets : List ZendeskTicket}
    (h : (tickets.map ZendeskTicket.id).Nodup) :
    diff (tickets.map (fun s => (s.id, s.updated_at))) tickets = ⟨[], [], []⟩ := by
  simp only [diff, TicketDiff.mk.injEq]
  refine ⟨?_, ?_, ?_⟩
  · rw [List.filter_eq_nil_iff]
    intro t ht
    rw [snapLookup_map_self h ht]
    simp
  · rw [List.filter_eq_nil_iff]
    intro t ht
    rw [snapLookup_map_self h ht]
    simp
  · rw [List.filter_eq_nil_iff]
    intro i hi
    simp only [List.map_map] at hi
    obtain ⟨s, hs, hsi⟩ := List.mem_map.mp hi
    have hany : (tickets.any fun t => t.id == i) = true :=
      List.any_eq_true.mpr ⟨s, hs, by simp [← hsi]⟩
    simp [hany]

end TicketPollingService

theorem poll_emitted_eq (known : Snapshot) (tickets : List ZendeskTicket) :
    (TicketPollingService.poll known (Except.ok tickets)).2.1 =
      if (TicketPollingService.diff known tickets).added.length != 0
        || (TicketPollingService.diff known tickets).updated.length != 0
        || (TicketPollingService.diff known tickets).removed.length != 0
      then some (TicketPollingService.diff known tickets) else none := rfl

theorem emit_cond_iff (d : TicketDiff) :
    (d.added.length != 0 || d.updated.length != 0 || d.removed.length != 0) = true ↔
      (d.added ≠ [] ∨ d.updated ≠ [] ∨ d.removed ≠ []) := by
  simp [Bool.or_eq_true, bne_iff_ne, ne_eq, List.length_eq_zero, or_assoc]

/-- C4: within a successful poll the known-tickets snapshot is replaced with
the fresh (id, revision) map derived from the fetch result even when the
diff is empty, and the change callback is invoked iff at least one diff
bucket is non-empty; consequently two consecutive polls returning an
identical non-empty (id-unique) ticket list invoke the callback exactly
once, on the first poll. -/
theorem poll_replaces_snapshot_and_emits_iff (known : Snapshot)
    (tickets : List ZendeskTicket) :
    ((TicketPollingService.poll known (Except.ok tickets)).1 =
      TicketPollingService.snapshotOf tickets) ∧
    (((TicketPollingService.poll known (Except.ok tickets)).2.1).isSome = true ↔
      ((TicketPollingService.diff known tickets).added ≠ [] ∨
       (TicketPollingService.diff known tickets).updated ≠ [] ∨
       (TicketPollingService.diff known tickets).removed ≠ [])) ∧
    ((tickets.map ZendeskTicket.id).Nodup → tickets ≠ [] →
      ((TicketPollingService.poll [] (Except.ok tickets)).2.1).isSome = true ∧
      (TicketPollingService.poll (TicketPollingService.poll [] (Except.ok tickets)).1
          (Except.ok tickets)).2.1 = none) := by
  refine ⟨rfl, ?_, ?_⟩
  · rw [poll_emitted_eq]
    by_cases hc : ((TicketPollingService.diff known tickets).added.length != 0
        || (TicketPollingService.diff known tickets).updated.length != 0
        || (TicketPollingService.diff known tickets).removed.length != 0) = true
    · rw [if_pos hc]
      simpa using (emit_cond_iff _).mp hc
    · rw [if_neg hc]
      simp only [Option.isSome_none, Bool.false_eq_true, false_iff]
      intro hor
      exact hc ((emit_cond_iff _).mpr hor)
  · intro hnodup hne
    constructor
    · rw [poll_emitted_eq, TicketPollingService.diff_nil_known]
      have hc : (tickets.length != 0 : Bool) = true := by
        simpa [bne_iff_ne, List.length_eq_zero] using hne
      simp [hc]
    · rw [show (TicketPollingService.poll [] (Except.ok tickets)).1 =
          TicketPollingService.snapshotOf tickets from rfl]
      rw [TicketPollingService.snapshotOf_eq_map hnodup, poll_emitted_eq,
        TicketPollingService.diff_after_snapshot hnodup]
      simp

/-- Witness for C4: polling twice on the singleton list with ticket 1 fires
the callback on the first poll and stays silent on the second. -/
theorem poll_replaces_snapshot_and_emits_iff_witness :
    ((TicketPollingService.poll [] (Except.ok [⟨1, "2026-01-01", "", "", []⟩])).2.1).isSome
        = true ∧
    (TicketPollingService.poll
        (TicketPollingService.poll [] (Except.ok [⟨1, "2026-01-01", "", "", []⟩])).1
        (Except.ok [⟨1, "2026-01-01", "", "", []⟩])).2.1 = none := by
  have h := poll_replaces_snapshot_and_emits_iff [] [⟨1, "2026-01-01", "", "", []⟩]
  exact h.2.2 (by decide) (by decide)

theorem addFold_get (now : Nat) (l : List ZendeskTicket) (q : TicketQueue)
    (i : Nat) (item : TicketQueueItem) (h : queueGet q i = some item) :
    queueGet (l.foldl (addTicketStep now) q) i = some item := by
  induction l generalizing q with
  | nil => exact h
  | cons t ts ih =>
      rw [List.foldl_cons]
      apply ih
      unfold addTicketStep
      by_cases hcase : (queueGet q t.id).isSome = true
      · rw [if_pos hcase]; exact h
      · rw [if_neg hcase]
        have hne : ¬(i = t.id) := by
          intro hc
          exact hcase (by rw [← hc, h]; rfl)
        show JsMap.get (JsMap.set q t.id (createQueueItem t now)) i = some item
        rw [JsMap.get_set, if_neg hne]
        exact h

theorem updFold_get (now : Nat) (l : List ZendeskTicket) (q : TicketQueue)
    (i : Nat) (item : TicketQueueItem) (h : queueGet q i = some item) :
    ∃ item', queueGet (l.foldl (updateTicketStep now) q) i = some item' ∧
      item'.status = item.status ∧ item'.sessionId = item.sessionId ∧
      item'.pendingActions = item.pendingActions ∧ item'.error = item.error ∧
      item'.addedAt = item.addedAt := by
  induction l generalizing q item with
  | nil => exact ⟨item, h, rfl, rfl, rfl, rfl, rfl⟩
  | cons t ts ih =>
      rw [List.foldl_cons]
      unfold updateTicketStep
      cases hg : queueGet q t.id with
      | some ex =>
          by_cases hit : i = t.id
          · have hex : ex = item := by
              rw [hit] at h
              rw [h] at hg
              exact (Option.some.inj hg).symm
            have hstep : queueGet
                (queueSet q t.id { ex with ticket := t, lastUpdatedAt := now }) i =
                some { ex with ticket := t, lastUpdatedAt := now } := by
              show JsMap.get (JsMap.set q t.id _) i = _
              rw [JsMap.get_set, if_pos hit]
            obtain ⟨item', h1, h2, h3, h4, h5, h6⟩ :=
              ih (queueSet q t.id { ex with ticket := t, lastUpdatedAt := now })
                { ex with ticket := t, lastUpdatedAt := now } hstep
            exact ⟨item', h1, by rw [h2, hex], by rw [h3, hex], by rw [h4, hex],
              by rw [h5, hex], by rw [h6, hex]⟩
          · have hstep : queueGet
                (queueSet q t.id { ex with ticket := t, lastUpdatedAt := now }) i =
                some item := by
              show JsMap.get (JsMap.set q t.id _) i = _
              rw [JsMap.get_set, if_neg hit]
              exact h
            exact ih _ item hstep
      | none =>
          have hit : ¬(i = t.id) := by
            intro hc
            rw [← hc, h] at hg
            cases hg
          have hstep : queueGet (queueSet q t.id (createQueueItem t now)) i =
              some item := by
            show JsMap.get (JsMap.set q t.id _) i = _
            rw [JsMap.get_set, if_neg hit]
            exact h
          exact ih _ item hstep

theorem remFold_get_none (l : List Nat) (q : TicketQueue) (i : Nat)
    (h : queueGet q i = none) :
    queueGet (l.foldl removeTicketStep q) i = none := by
  induction l generalizing q with
  | nil => exact h
  | cons j js ih =>
      rw [List.foldl_cons]
      apply ih
      cases hg : queueGet q j with
      | none => simp only [removeTicketStep, hg]; exact h
      | some itj =>
          simp only [removeTicketStep, hg]
          by_cases hcond : (itj.status != TicketProcessingStatus.working) = true
          · rw [if_pos hcond]
            show JsMap.get (JsMap.del q j) i = none
            rw [JsMap.get_del]
            by_cases hij : i = j
            · rw [if_pos hij]
            · rw [if_neg hij]; exact h
          · rw [if_neg hcond]; exact h

theorem remFold_get_working (l : List Nat) (q : TicketQueue) (i : Nat)
    (item : TicketQueueItem) (h : queueGet q i = some item)
    (hw : item.status = TicketProcessingStatus.working) :
    queueGet (l.foldl removeTicketStep q) i = some item := by
  induction l generalizing q with
  | nil => exact h
  | cons j js ih =>
      rw [List.foldl_cons]
      apply ih
      cases hg : queueGet q j with
      | none => simp only [removeTicketStep, hg]; exact h
      | some itj =>
          simp only [removeTicketStep, hg]
          by_cases hij : i = j
          · have hit : itj = item := by
              rw [hij] at h
              rw [h] at hg
              exact (Option.some.inj hg).symm
            have hcond : (itj.status != TicketProcessingStatus.working) = false := by
              rw [hit, hw]
              simp
            rw [hcond]
            simp only [Bool.false_eq_true, if_false]
            exact h
          · by_cases hcond : (itj.status != TicketProcessingStatus.working) = true
            · rw [if_pos hcond]
              show JsMap.get (JsMap.del q j) i = some item
              rw [JsMap.get_del, if_neg hij]
              exact h
            · rw [if_neg hcond]; exact h

theorem remFold_deletes (l : List Nat) (q : TicketQueue) (i : Nat) (hin : i ∈ l)
    (h : ∀ item, queueGet q i = some item →
      item.status ≠ TicketProcessingStatus.working) :
    queueGet (l.foldl removeTicketStep q) i = none := by
  induction l generalizing q with
  | nil => cases hin
  | cons j js ih =>
      rw [List.foldl_cons]
      by_cases hij : i = j
      · have hstep : queueGet (removeTicketStep q j) i = none := by
          cases hg : queueGet q j with
          | none => simp only [removeTicketStep, hg]; rw [← hij] at hg; exact hg
          | some itj =>
              simp only [removeTicketStep, hg]
              have hne : itj.status ≠ TicketProcessingStatus.working :=
                h itj (by rw [hij]; exact hg)
              have hcond : (itj.status != TicketProcessingStatus.working) = true := by
                simpa using hne
              rw [if_pos hcond]
              show JsMap.get (JsMap.del q j) i = none
              rw [JsMap.get_del, if_pos hij]
        exact remFold_get_none js _ i hstep
      · have hin2 : i ∈ js := by
          rcases List.mem_cons.mp hin with hc | hc
          · exact absurd hc hij
          · exact hc
        have hsame : queueGet (removeTicketStep q j) i = queueGet q i := by
          cases hg : queueGet q j with
          | none => simp only [removeTicketStep, hg]
          | some itj =>
              simp only [removeTicketStep, hg]
              by_cases hcond : (itj.status != TicketProcessingStatus.working) = true
              · rw [if_pos hcond]
                show JsMap.get (JsMap.del q j) i = JsMap.get q i
                rw [JsMap.get_del, if_neg hij]
              · rw [if_neg hcond]
        refine ih _ hin2 ?_
        intro it hit
        apply h it
        rw [← hsame]
        exact hit

/-- C3: diff ingestion never deletes a queue item whose processing status is
`working`, even when the diff reports its ticket id as removed; a removed id
whose item has any other status is deleted from the table. -/
theorem handleTicketDiff_working_protected (now : Nat) (prev : TicketQueue)
    (d : TicketDiff) (id : Nat) (item : TicketQueueItem)
    (h : queueGet prev id = some item) :
    (item.status = TicketProcessingStatus.working →
      ∃ item', queueGet (handleTicketDiff now prev d) id = some item' ∧
        item'.status = TicketProcessingStatus.working) ∧
    (item.status ≠ TicketProcessingStatus.working → id ∈ d.removed →
      queueGet (handleTicketDiff now prev d) id = none) := by
  have hadd := addFold_get now d.added prev id item h
  obtain ⟨item', hupd, hst, _, _, _, _⟩ := updFold_get now d.updated _ id item hadd
  constructor
  · intro hw
    refine ⟨item', ?_, by rw [hst, hw]⟩
    unfold handleTicketDiff
    exact remFold_get_working d.removed _ id item' hupd (by rw [hst, hw])
  · intro hnw hin
    unfold handleTicketDiff
    apply remFold_deletes d.removed _ id hin
    intro it hit
    rw [hupd] at hit
    rw [← Option.some.inj hit, hst]
    exact hnw

/-- Witness for C3: a working item survives a diff that removes its id, and
a pending item with the same diff is deleted. -/
theorem handleTicketDiff_working_protected_witness :
    (∃ item', queueGet (handleTicketDiff 9
        [(1, { ticket := ⟨1, "2026-01-01", "", "", []⟩
             , status := TicketProcessingStatus.working
             , sessionId := some ("s1"), requester := none, comments := []
             , pendingActions := [], error := none, addedAt := 0
             , lastUpdatedAt := 0 })] ⟨[], [], [1]⟩) 1 = some item' ∧
      item'.status = TicketProcessingStatus.working) ∧
    queueGet (handleTicketDiff 9
        [(1, { ticket := ⟨1, "2026-01-01", "", "", []⟩
             , status := TicketProcessingStatus.pending
             , sessionId := none, requester := none, comments := []
             , pendingActions := [], error := none, addedAt := 0
             , lastUpdatedAt := 0 })] ⟨[], [], [1]⟩) 1 = none := by
  constructor
  · exact (handleTicketDiff_working_protected 9 _ ⟨[], [], [1]⟩ 1
      { ticket := ⟨1, "2026-01-01", "", "", []⟩
      , status := TicketProcessingStatus.working
      , sessionId := some ("s1"), requester := none, comments := []
      , pendingActions := [], error := none, addedAt := 0
      , lastUpdatedAt := 0 } (by decide)).1 rfl
  · exact (handleTicketDiff_working_protected 9 _ ⟨[], [], [1]⟩ 1
      { ticket := ⟨1, "2026-01-01", "", "", []⟩
      , status := TicketProcessingStatus.pending
      , sessionId := none, requester := none, comments := []
      , pendingActions := [], error := none, addedAt := 0
      , lastUpdatedAt := 0 } (by decide)).2 (by decide) (by decide)

/-- C6 (amended): ingestion of an `updated` ticket whose id already has a
queue item replaces only the embedded ticket and `lastUpdatedAt`, preserving
`sessionId`, `pendingActions` and `processingStatus`; an `added` ticket
whose id already has a queue item leaves the table entirely unchanged (the
fresh ticket data is discarded); a ticket with no existing item gets a fresh
item with status `pending`, null session and no pending actions. -/
theorem handleTicketDiff_ingest_semantics (now : Nat) (prev : TicketQueue)
    (t : ZendeskTicket) :
    (∀ item, queueGet prev t.id = some item →
      handleTicketDiff now prev ⟨[t], [], []⟩ = prev) ∧
    (queueGet prev t.id = none →
      handleTicketDiff now prev ⟨[t], [], []⟩ =
        queueSet prev t.id (createQueueItem t now)) ∧
    (∀ item, queueGet prev t.id = some item →
      queueGet (handleTicketDiff now prev ⟨[], [t], []⟩) t.id =
        some { item with ticket := t, lastUpdatedAt := now }) ∧
    (queueGet prev t.id = none →
      handleTicketDiff now prev ⟨[], [t], []⟩ =
        queueSet prev t.id (createQueueItem t now)) := by
  refine ⟨?_, ?_, ?_, ?_⟩
  · intro item h
    unfold handleTicketDiff
    simp only [List.foldl_cons, List.foldl_nil]
    simp only [addTicketStep, h, Option.isSome_some, if_true]
  · intro h
    unfold handleTicketDiff
    simp only [List.foldl_cons, List.foldl_nil]
    simp only [addTicketStep, h, Option.isSome_none, Bool.false_eq_true, if_false]
  · intro item h
    unfold handleTicketDiff
    simp only [List.foldl_cons, List.foldl_nil]
    simp only [updateTicketStep, h]
    show JsMap.get (JsMap.set prev t.id _) t.id = _
    rw [JsMap.get_set, if_pos rfl]
  · intro h
    unfold handleTicketDiff
    simp only [List.foldl_cons, List.foldl_nil]
    simp only [updateTicketStep, h]

/-- Counterexample to C6 as stated: an `added` ticket whose id already has a
queue item does not have its embedded Ticket replaced — ingestion leaves the
old revision marker 2026-01-01 in place although the incoming added ticket
carries 2026-01-02. -/
theorem handleTicketDiff_added_existing_counterexample :
    (queueGet (handleTicketDiff 5
        [(1, { ticket := ⟨1, "2026-01-01", "", "", []⟩
             , status := TicketProcessingStatus.working
             , sessionId := some ("s1"), requester := none, comments := []
             , pendingActions := [], error := none, addedAt := 0
             , lastUpdatedAt := 0 })]
        ⟨[⟨1, "2026-01-02", "", "", []⟩], [], []⟩) 1).map
      (fun it => it.ticket.updated_at) = some ("2026-01-01") ∧
    ("2026-01-01" : String) ≠ "2026-01-02" := by decide

/-- Witness for C6 (amended): updating ticket 1's revision from 2026-01-01
to 2026-01-02 replaces the embedded ticket and bumps `lastUpdatedAt` while
keeping status `ready` and the linked session. -/
theorem handleTicketDiff_ingest_semantics_witness :
    queueGet (handleTicketDiff 5
        [(1, { ticket := ⟨1, "2026-01-01", "", "", []⟩
             , status := TicketProcessingStatus.ready
             , sessionId := some ("s1"), requester := none, comments := []
             , pendingActions := [], error := none, addedAt := 0
             , lastUpdatedAt := 0 })]
        ⟨[], [⟨1, "2026-01-02", "", "", []⟩], []⟩) 1 =
      some { ticket := ⟨1, "2026-01-02", "", "", []⟩
           , status := TicketProcessingStatus.ready
           , sessionId := some ("s1"), requester := none, comments := []
           , pendingActions := [], error := none, addedAt := 0
           , lastUpdatedAt := 5 } :=
  (handleTicketDiff_ingest_semantics 5 _ ⟨1, "2026-01-02", "", "", []⟩).2.2.1
    { ticket := ⟨1, "2026-01-01", "", "", []⟩
    , status := TicketProcessingStatus.ready
    , sessionId := some ("s1"), requester := none, comments := []
    , pendingActions := [], error := none, addedAt := 0
    , lastUpdatedAt := 0 } (by decide)

/-- C7: for a ticket present in the table, appending a pending action sets
status `ready`; removing an action by id sets status `done` when the
resulting queue is empty and `ready` otherwise; clearing empties the queue
and sets `done` regardless of prior status and contents. -/
theorem pending_action_transitions (now : Nat) (q : TicketQueue) (ticketId : Nat)
    (item : TicketQueueItem) (a : PendingAction) (actionId : String)
    (h : queueGet q ticketId = some item) :
    (queueGet (addPendingAction now q ticketId a) ticketId =
      some { item with
             pendingActions := item.pendingActions ++ [a],
             status := TicketProcessingStatus.ready, lastUpdatedAt := now }) ∧
    (queueGet (removePendingAction now q ticketId actionId) ticketId =
      some { item with
             pendingActions := item.pendingActions.filter (fun b => b.id != actionId),
             status := if item.pendingActions.filter (fun b => b.id != actionId) = []
               then TicketProcessingStatus.done else TicketProcessingStatus.ready,
             lastUpdatedAt := now }) ∧
    (queueGet (clearPendingActions now q ticketId) ticketId =
      some { item with
             pendingActions := [],
             status := TicketProcessingStatus.done, lastUpdatedAt := now }) := by
  refine ⟨?_, ?_, ?_⟩
  · simp only [addPendingAction, h]
    show JsMap.get (JsMap.set q ticketId _) ticketId = _
    rw [JsMap.get_set, if_pos rfl]
  · simp only [removePendingAction, h]
    show JsMap.get (JsMap.set q ticketId _) ticketId = _
    rw [JsMap.get_set, if_pos rfl]
    by_cases hF : item.pendingActions.filter (fun b => b.id != actionId) = []
    · simp [hF]
    · have hpos := List.length_pos.mpr hF
      simp [hF, hpos]
  · simp only [clearPendingActions, h]
    show JsMap.get (JsMap.set q ticketId _) ticketId = _
    rw [JsMap.get_set, if_pos rfl]

/-- Witness for C7: clearing the two queued actions of the example item
yields an empty queue with status done. -/
theorem pending_action_transitions_witness :
    queueGet (clearPendingActions 7 cexQueue 1) 1 =
      some { cexItem with
             pendingActions := [],
             status := TicketProcessingStatus.done, lastUpdatedAt := 7 } :=
  (pending_action_transitions 7 cexQueue 1 cexItem cexAction1 ("a1")
    (by decide)).2.2

/-- C8: every mutation atom invoked with a ticket id that is not in the
table returns without throwing and leaves the table's contents unchanged. -/
theorem unknown_ticket_mutations_noop (now : Nat) (q : TicketQueue)
    (ticketId : Nat) (sessionId : String) (status : TicketProcessingStatus)
    (err : Option String) (a : PendingAction) (actionId : String)
    (h : queueGet q ticketId = none) :
    setTicketSessionId now q ticketId sessionId = q ∧
    setTicketStatus now q ticketId status err = q ∧
    addPendingAction now q ticketId a = q ∧
    removePendingAction now q ticketId actionId = q ∧
    clearPendingActions now q ticketId = q := by
  refine ⟨?_, ?_, ?_, ?_, ?_⟩
  · simp only [setTicketSessionId, h]
  · simp only [setTicketStatus, h]
  · simp only [addPendingAction, h]
  · simp only [removePendingAction, h]
  · simp only [clearPendingActions, h]

/-- Witness for C8: mutating absent ticket id 2 of the one-ticket example
table leaves the table unchanged. -/
theorem unknown_ticket_mutations_noop_witness :
    setTicketSessionId 7 cexQueue 2 ("s9") = cexQueue ∧
    clearPendingActions 7 cexQueue 2 = cexQueue := by
  have h := unknown_ticket_mutations_noop 7 cexQueue 2 ("s9")
    TicketProcessingStatus.done none cexAction1 ("a1") (by decide)
  exact ⟨h.1, h.2.2.2.2⟩

/-- C10: removing a pending action whose id does not occur in the ticket's
queue is not a pure no-op — the item is rewritten with `lastUpdatedAt`
bumped and its status forced to `done` if the queue was already empty, and
to `ready` otherwise. -/
theorem removePendingAction_missing_id (now : Nat) (q : TicketQueue)
    (ticketId : Nat) (item : TicketQueueItem) (actionId : String)
    (h : queueGet q ticketId = some item)
    (hmiss : ∀ a ∈ item.pendingActions, a.id ≠ actionId) :
    queueGet (removePendingAction now q ticketId actionId) ticketId =
      some { item with
             status := if item.pendingActions = [] then TicketProcessingStatus.done
               else TicketProcessingStatus.ready,
             lastUpdatedAt := now } := by
  have hfilter : item.pendingActions.filter (fun b => b.id != actionId) =
      item.pendingActions := by
    rw [List.filter_eq_self]
    intro a ha
    simpa using hmiss a ha
  simp only [removePendingAction, h, hfilter]
  show JsMap.get (JsMap.set q ticketId _) ticketId = _
  rw [JsMap.get_set, if_pos rfl]
  by_cases hF : item.pendingActions = []
  · simp [hF]
  · have hpos := List.length_pos.mpr hF
    simp [hF, hpos]

/-- Witness for C10: a working item with an empty action queue transitions
to done when a non-existent action id is removed. -/
theorem removePendingAction_missing_id_witness :
    queueGet (removePendingAction 7
        [(1, { ticket := ⟨1, "2026-01-01", "", "", []⟩
             , status := TicketProcessingStatus.working
             , sessionId := some ("s1"), requester := none, comments := []
             , pendingActions := [], error := none, addedAt := 0
             , lastUpdatedAt := 0 })] 1 ("nope")) 1 =
      some { ticket := ⟨1, "2026-01-01", "", "", []⟩
           , status := TicketProcessingStatus.done
           , sessionId := some ("s1"), requester := none, comments := []
           , pendingActions := [], error := none, addedAt := 0
           , lastUpdatedAt := 7 } := by
  have h := removePendingAction_missing_id 7
    [(1, { ticket := ⟨1, "2026-01-01", "", "", []⟩
         , status := TicketProcessingStatus.working
         , sessionId := some ("s1"), requester := none, comments := []
         , pendingActions := [], error := none, addedAt := 0
         , lastUpdatedAt := 0 })] 1
    { ticket := ⟨1, "2026-01-01", "", "", []⟩
    , status := TicketProcessingStatus.working
    , sessionId := some ("s1"), requester := none, comments := []
    , pendingActions := [], error := none, addedAt := 0
    , lastUpdatedAt := 0 } ("nope") (by decide) (by intro a ha; cases ha)
  simpa using h

/-- C2 (amended): confirm-all executes every action of the ticket's queue
sequentially in queue order — a failure of one action does not abort the
rest — and then clears the ENTIRE pending queue, setting status `done`,
regardless of per-action success: an action whose execution failed is
removed too and does not remain queued for retry. -/
theorem handleConfirmAll_executes_all_then_clears (now : Nat)
    (remoteOk : PendingAction → Bool) (q : TicketQueue) (ticketId : Nat)
    (item : TicketQueueItem) (h : queueGet q ticketId = some item) :
    ((handleConfirmAll now remoteOk q ticketId).2.map (fun e => e.1) =
      item.pendingActions.map (fun a => a.id)) ∧
    (queueGet (handleConfirmAll now remoteOk q ticketId).1 ticketId =
      some { item with
             pendingActions := [],
             status := TicketProcessingStatus.done, lastUpdatedAt := now }) := by
  constructor
  · simp only [handleConfirmAll, h]
    rw [List.map_map]
    rfl
  · simp only [handleConfirmAll, h]
    simp only [clearPendingActions, h]
    show JsMap.get (JsMap.set q ticketId _) ticketId = _
    rw [JsMap.get_set, if_pos rfl]

/-- Counterexample to C2 as stated: with two queued actions whose first
remote execution fails (success flag false) and second succeeds, confirm-all
still removes both — the failed action a1 does not remain queued. -/
theorem handleConfirmAll_counterexample :
    ((handleConfirmAll 7 (fun a => a.id != "a1") cexQueue 1).2.map
        (fun e => (e.1, e.2.1)) = [("a1", false), ("a2", true)]) ∧
    ((queueGet (handleConfirmAll 7 (fun a => a.id != "a1") cexQueue 1).1 1).map
        (fun it => it.pendingActions) = some []) := by decide

/-- Witness for C2 (amended): on the two-action example with a failing first
action, confirm-all clears the queue and sets status done. -/
theorem handleConfirmAll_executes_all_then_clears_witness :
    queueGet (handleConfirmAll 7 (fun a => a.id != "a1") cexQueue 1).1 1 =
      some { cexItem with
             pendingActions := [],
             status := TicketProcessingStatus.done, lastUpdatedAt := 7 } :=
  (handleConfirmAll_executes_all_then_clears 7 (fun a => a.id != "a1")
    cexQueue 1 cexItem (by decide)).2

theorem setDedup_go_mem (l acc : List String) (x : String) :
    (x ∈ l.foldl (fun acc y => if y ∈ acc then acc else acc ++ [y]) acc) ↔
      x ∈ acc ∨ x ∈ l := by
  induction l generalizing acc with
  | nil => simp
  | cons y ys ih =>
      rw [List.foldl_cons]
      by_cases hy : y ∈ acc
      · rw [if_pos hy, ih]
        constructor
        · rintro (hx | hx)
          · exact Or.inl hx
          · exact Or.inr (List.mem_cons_of_mem y hx)
        · rintro (hx | hx)
          · exact Or.inl hx
          · rcases List.mem_cons.mp hx with hx | hx
            · exact Or.inl (hx ▸ hy)
            · exact Or.inr hx
      · rw [if_neg hy, ih]
        simp [List.mem_append, List.mem_cons, or_assoc]

theorem mem_mergeTags (ex new : List String) (x : String) :
    x ∈ mergeTags ex new ↔ x ∈ ex ∨ x ∈ new := by
  rw [mergeTags, setDedup, setDedup_go_mem]
  simp

/-- C9 (amended): the confirm handler selects the remote side effect by the
payload's action kind for the three confirmation kinds — draft_reply sends a
public comment plus an optional status change, request_status_change a
status change only, request_escalation a private internal comment recording
reason and target group; any other kind, add-tags included, triggers no
remote call at all (and reports success): tags are merged additively, never
removing existing tags, by the auto-execute add_ticket_tags tool outside the
confirmation flow. -/
theorem confirm_action_side_effects (remoteOk : Bool) (payload : ActionPayload)
    (ticket : ZendeskTicket) (newTags : List String) :
    (payload.action = "draft_reply" →
      confirmZendeskAction remoteOk payload =
        { success := remoteOk
        , sent := [{ comment := some { body := payload.body, public := true }
                   , status := payload.setStatus, tags := none }] }) ∧
    (payload.action = "request_status_change" →
      confirmZendeskAction remoteOk payload =
        { success := remoteOk
        , sent := [{ comment := none, status := some payload.requestedStatus
                   , tags := none }] }) ∧
    (payload.action = "request_escalation" →
      confirmZendeskAction remoteOk payload =
        { success := remoteOk
        , sent := [{ comment := some ⟨"**Escalation requested:** " ++
                        payload.reason ++
                        (match payload.targetGroup with
                         | some g => "\nTarget group: " ++ g
                         | none => ""), false⟩
                   , status := none, tags := none }] }) ∧
    (payload.action ≠ "draft_reply" → payload.action ≠ "request_status_change" →
      payload.action ≠ "request_escalation" →
      confirmZendeskAction remoteOk payload = { success := true, sent := [] }) ∧
    ((addTicketTagsUpdate ticket newTags).tags =
        some (mergeTags ticket.tags newTags) ∧
      (∀ tg ∈ ticket.tags, tg ∈ mergeTags ticket.tags newTags) ∧
      (∀ tg ∈ newTags, tg ∈ mergeTags ticket.tags newTags)) := by
  refine ⟨?_, ?_, ?_, ?_, rfl, ?_, ?_⟩
  · intro hact
    simp [confirmZendeskAction, confirmActionUpdate, hact]
  · intro hact
    simp [confirmZendeskAction, confirmActionUpdate, hact]
  · intro hact
    simp [confirmZendeskAction, confirmActionUpdate, hact]
  · intro h1 h2 h3
    simp [confirmZendeskAction, confirmActionUpdate, h1, h2, h3]
  · intro tg htg
    exact (mem_mergeTags ticket.tags newTags tg).mpr (Or.inl htg)
  · intro tg htg
    exact (mem_mergeTags ticket.tags newTags tg).mpr (Or.inr htg)

/-- Counterexample to C9 as stated: confirming an action of kind add_tags
makes no remote call at all — no tag merge is performed by the confirmation
flow, and the handler even reports success. -/
theorem confirm_add_tags_counterexample :
    confirmZendeskAction true { action := "add_tags", tags := ["vip"] } =
      { success := true, sent := [] } := by decide

/-- Witness for C9 (amended): confirming a draft_reply with a status change
to solved, whose remote call fails, attempts exactly one public-comment
update and reports failure. -/
theorem confirm_action_side_effects_witness :
    confirmZendeskAction false
        { action := "draft_reply", body := "Hi", setStatus := some ("solved") } =
      { success := false
      , sent := [{ comment := some { body := "Hi", public := true }
                 , status := some ("solved"), tags := none }] } :=
  (confirm_action_side_effects false
    { action := "draft_reply", body := "Hi", setStatus := some ("solved") }
    ⟨1, "2026-01-01", "", "", []⟩ []).1 rfl
